import Mathlib

/-!
Shallow embedding of the shrimp-vision annotation frontend: the annotation
session of the annotate page (mouse handlers, canvas label rendering, box
deletion, save record, image navigation) and the training job status
synchronizer (polling loop with log deduplication), together with theorems
about the frozen specification claims.

Machine reals of the source (JS numbers) are modelled as exact rationals;
a JS division is modelled as an `Option ℚ` where `none` stands for a
non-finite result (`NaN` or `±Infinity`, which arise exactly when the
divisor is zero).
-/

namespace ShrimpVision

/-- `BoundingBox` record of the annotate page (part_004):
`{x, y, width, height, label, confidence, class_id?, color?, attributes?}`. -/
structure BoundingBox where
  x : ℚ
  y : ℚ
  width : ℚ
  height : ℚ
  label : String
  confidence : ℚ
  class_id : Option Int
  color : Option String
  attributes : List String
deriving DecidableEq, Repr

/-- The in-progress candidate box created on mouse-down
(`Partial<BoundingBox>` in the source, with the fields that are set). -/
structure CurrentBox where
  x : ℚ
  y : ℚ
  width : ℚ
  height : ℚ
  label : String
  confidence : ℚ
deriving DecidableEq, Repr

/-- `ClassInfo` descriptor from the attribute registry. -/
structure ClassInfo where
  id : Int
  name : String
  display_name : String
  color : String
  description : String
deriving DecidableEq, Repr

/-- `ImageData` record of the image listing. -/
structure ImageData where
  id : String
  filename : String
  original_name : String
  width : ℚ
  height : ℚ
  path : String
deriving DecidableEq, Repr

/-- The component state of the annotate page that the mouse handlers read
and write: committed boxes, drawing flag, candidate box, and the currently
selected type/color/attributes together with the loaded registry. -/
structure SessionState where
  boundingBoxes : List BoundingBox
  isDrawing : Bool
  currentBox : Option CurrentBox
  selectedClass : String
  selectedColor : Option String
  selectedAttributes : List String
  availableClasses : String → Option ClassInfo

/-- JS division `a / b`: `none` models the non-finite results `NaN` and
`±Infinity`, which occur exactly when the divisor is zero. -/
def jsDiv (a b : ℚ) : Option ℚ :=
  if b = 0 then none else some (a / b)

/-- The pointer-to-normalized x conversion performed at the top of
`handleMouseDown`/`handleMouseMove`:
`scaleX = canvas.width / rect.width`, `x = (clientX - rect.left) * scaleX`,
`normalizedX = x / canvas.width`.  A non-finite intermediate propagates. -/
def pointerToNormalizedX (clientX rectLeft rectWidth canvasWidth : ℚ) : Option ℚ :=
  (jsDiv canvasWidth rectWidth).bind fun scaleX =>
    jsDiv ((clientX - rectLeft) * scaleX) canvasWidth

/-- The renderer side of the coordinate transformer (`drawCanvas`):
`x = box.x * canvas.width`. -/
def toPixelX (normalized canvasWidth : ℚ) : ℚ :=
  normalized * canvasWidth

/-- `handleMouseDown`, applied to already-normalized pointer coordinates:
starts drawing with a zero-size candidate box anchored at the pointer. -/
def handleMouseDown (st : SessionState) (normalizedX normalizedY : ℚ) : SessionState :=
  { st with
    isDrawing := true
    currentBox := some
      { x := normalizedX, y := normalizedY, width := 0, height := 0
        label := "shrimp", confidence := 1 } }

/-- `Math.abs` on an (exact) JS number. -/
def jsAbs (q : ℚ) : ℚ :=
  if q < 0 then -q else q

/-- The candidate-box update performed by `handleMouseMove`: the stored
`x`/`y` is replaced by the pointer position whenever the freshly computed
signed width/height is negative, and `width`/`height` are the absolute
values of the signed differences against the stored corner. -/
def moveBox (cb : CurrentBox) (normalizedX normalizedY : ℚ) : CurrentBox :=
  let width := normalizedX - cb.x
  let height := normalizedY - cb.y
  { cb with
    width := jsAbs width
    height := jsAbs height
    x := if width < 0 then normalizedX else cb.x
    y := if height < 0 then normalizedY else cb.y }

/-- `handleMouseMove`, applied to already-normalized pointer coordinates:
a no-op unless a drawing is in progress, in which case the candidate box
is resized via `moveBox`. -/
def handleMouseMove (st : SessionState) (normalizedX normalizedY : ℚ) : SessionState :=
  match st.isDrawing, st.currentBox with
  | true, some cb => { st with currentBox := some (moveBox cb normalizedX normalizedY) }
  | _, _ => st

/-- The committed box built in `handleMouseUp` from the candidate box and
the current selections (`{...currentBox, label: selectedClass, class_id,
color: selectedColor || undefined, attributes}`). -/
def newBoxFrom (st : SessionState) (cb : CurrentBox) : BoundingBox :=
  { x := cb.x, y := cb.y, width := cb.width, height := cb.height
    label := st.selectedClass
    confidence := cb.confidence
    class_id := (st.availableClasses st.selectedClass).map fun c => c.id
    color := match st.selectedColor with
      | some s => if s = "" then none else some s
      | none => none
    attributes := if st.selectedAttributes.length > 0 then st.selectedAttributes else [] }

/-- `handleMouseUp`: commits the candidate box to the box set exactly when
both its width and height exceed `0.01`, and in every case leaves drawing
mode with no candidate box. -/
def handleMouseUp (st : SessionState) : SessionState :=
  match st.isDrawing, st.currentBox with
  | true, some cb =>
      let boxes :=
        if cb.width > 1/100 ∧ cb.height > 1/100 then
          st.boundingBoxes ++ [newBoxFrom st cb]
        else
          st.boundingBoxes
      { st with boundingBoxes := boxes, isDrawing := false, currentBox := none }
  | _, _ => st

/-- One full drag gesture: mouse-down at `a`, the given sequence of
mouse-moves, then mouse-up (all coordinates already normalized). -/
def runGesture (st : SessionState) (a : ℚ × ℚ) (moves : List (ℚ × ℚ)) : SessionState :=
  handleMouseUp (moves.foldl (fun s m => handleMouseMove s m.1 m.2) (handleMouseDown st a.1 a.2))

/-- `deleteBox`: `boundingBoxes.filter((_, i) => i !== index)`. -/
def deleteBox (boxes : List BoundingBox) (index : Nat) : List BoundingBox :=
  (boxes.enum.filter fun p => p.1 ≠ index).map Prod.snd

/-- The display name used by `drawCanvas` for a box label:
`availableClasses[box.label || 'shrimp']?.display_name || box.label`. -/
def displayNameFor (reg : String → Option ClassInfo) (label : String) : String :=
  match reg (if label = "" then "shrimp" else label) with
  | some c => if c.display_name = "" then label else c.display_name
  | none => label

/-- The label text `drawCanvas` writes for the box at position `idx` of the
drawn list: display name plus the 1-based position in that list. -/
def boxLabelAt (reg : String → Option ClassInfo) (label : String) (idx : Nat) : String :=
  displayNameFor reg label ++ " " ++ toString (idx + 1)

/-- The ordered list of label texts produced by `drawCanvas`: the candidate
box (when present) is appended after the committed boxes, and each drawn
box gets the label of `boxLabelAt` at its index in that combined list. -/
def drawCanvasLabels (reg : String → Option ClassInfo)
    (committed : List BoundingBox) (current : Option CurrentBox) : List String :=
  ((committed.map fun b => b.label) ++ (current.map fun c => c.label).toList).enum.map
    fun p => boxLabelAt reg p.2 p.1

/-- The `Annotation` record of the annotate page. -/
structure AnnotationRecord where
  image_id : String
  image_filename : String
  image_width : ℚ
  image_height : ℚ
  bounding_boxes : List BoundingBox
  total_shrimp : Nat
deriving DecidableEq, Repr

/-- `saveAnnotation`: the record handed to the persistence endpoint, with
`total_shrimp: boundingBoxes.length`. -/
def saveAnnotationRecord (img : ImageData) (boxes : List BoundingBox) : AnnotationRecord :=
  { image_id := img.id
    image_filename := img.filename
    image_width := img.width
    image_height := img.height
    bounding_boxes := boxes
    total_shrimp := boxes.length }

/-- `nextImage`: advances the index only while strictly below
`images.length - 1` (the comparison is over integers, as in JS). -/
def nextImage (idx len : Nat) : Nat :=
  if (idx : Int) < (len : Int) - 1 then idx + 1 else idx

/-- `prevImage`: decrements the index only while strictly positive. -/
def prevImage (idx : Nat) : Nat :=
  if idx > 0 then idx - 1 else idx

/-- `TrainingUpdate` as consumed by the `TrainingProgress` component:
`{status, message, current_epoch, total_epochs, loss}` (the fields the
polling logic reads); `loss` is `none` when the endpoint reports null. -/
structure TrainingUpdate where
  status : String
  message : String
  current_epoch : Nat
  total_epochs : Nat
  loss : Option ℚ
deriving DecidableEq, Repr

/-- State of the training-progress log machinery: the two refs remembering
the previously logged status and epoch, and the log history. -/
structure SyncState where
  prevStatus : Option String
  prevEpoch : Option Nat
  logs : List String
deriving DecidableEq, Repr

/-- Renders a rational with four digits after the decimal point, rounding
to nearest; models `Number.toFixed(4)` over exact arithmetic. -/
def formatFixed4 (q : ℚ) : String :=
  let sign := if q < 0 then "-" else ""
  let n : Nat := (round (|q| * 10000) : Int).toNat
  let frac := toString (n % 10000)
  sign ++ toString (n / 10000) ++ "." ++
    String.mk (List.replicate (4 - frac.length) '0') ++ frac

/-- The log line built by `pollTrainingStatus`: timestamp prefixed message,
with an epoch (and, when present, loss) suffix while training. -/
def logMessageOf (time : String) (s : TrainingUpdate) : String :=
  let base := "[" ++ time ++ "] " ++ s.message
  if s.status = "training" ∧ s.current_epoch > 0 then
    let withEpoch := base ++ " - Epoch " ++ toString s.current_epoch ++ "/" ++
      toString s.total_epochs
    match s.loss with
    | some l => withEpoch ++ " - Loss: " ++ formatFixed4 l
    | none => withEpoch
  else base

/-- The `shouldLog` condition of `pollTrainingStatus`. -/
def shouldLog (prevS : Option String) (prevE : Option Nat) (s : TrainingUpdate) : Bool :=
  prevS ≠ some s.status ∨ prevE ≠ some s.current_epoch ∨
    (s.status = "preparing" ∧ prevS ≠ some "preparing") ∨
    (s.status = "training" ∧ prevE = none)

/-- `Array.prototype.slice(-n)`: the suffix of the most recent `n` items. -/
def sliceLast (n : Nat) (l : List String) : List String :=
  l.drop (l.length - n)

/-- One run of `pollTrainingStatus`.  A `none` response models a fetch
error or an unsuccessful payload (caught and ignored).  On a successful
response the status is cached, a log line is appended when `shouldLog`
fires — unless it is textually identical to the last line — the history is
truncated to the most recent 50 entries, and the two refs are updated. -/
def pollStep (st : SyncState) (time : String) (resp : Option TrainingUpdate) : SyncState :=
  match resp with
  | none => st
  | some s =>
      if shouldLog st.prevStatus st.prevEpoch s then
        let logMessage := logMessageOf time s
        let logs' :=
          if st.logs.length > 0 ∧ st.logs.getLast? = some logMessage then st.logs
          else sliceLast 50 (st.logs ++ [logMessage])
        { prevStatus := some s.status, prevEpoch := some s.current_epoch, logs := logs' }
      else st

/-- One tick of the `TrainingProgress` effect: while the component is
visible the interval is live and a poll runs; when it is not visible the
effect has cleaned up (interval cleared, refs reset) and no poll happens.
The returned flag records whether a poll request was issued this tick. -/
def progressTick (st : SyncState) (visible : Bool) (time : String)
    (resp : Option TrainingUpdate) : SyncState × Bool :=
  if visible then (pollStep st time resp, true)
  else ({ st with prevStatus := none, prevEpoch := none }, false)

/-- Runs the `TrainingProgress` effect over a trace of ticks, returning the
final state and, per tick, whether a poll request was issued. -/
def runProgress (ticks : List (Bool × String × Option TrainingUpdate)) :
    SyncState × List Bool :=
  ticks.foldl
    (fun acc t =>
      let r := progressTick acc.1 t.1 t.2.1 t.2.2
      (r.1, acc.2 ++ [r.2]))
    (⟨none, none, []⟩, [])

/-- The part of the train page state that drives its polling interval. -/
structure PageState where
  isTraining : Bool
  status : String
deriving DecidableEq, Repr

/-- `fetchTrainingStatus` on the train page: caches the reported status and
clears `isTraining` when a terminal state is observed; errors and
unsuccessful payloads are caught and change nothing. -/
def applyFetch (st : PageState) (resp : Option TrainingUpdate) : PageState :=
  match resp with
  | none => st
  | some s =>
      { isTraining := if s.status = "completed" ∨ s.status = "failed" then false
          else st.isTraining
        status := s.status }

/-- The condition of the train page polling effect: the interval runs while
`isTraining || status === 'preparing' || status === 'training'`. -/
def pagePollingActive (st : PageState) : Bool :=
  st.isTraining ∨ st.status = "preparing" ∨ st.status = "training"

/-- One tick of the train page polling effect: a fetch is issued exactly
while the interval condition holds. -/
def pageTick (st : PageState) (resp : Option TrainingUpdate) : PageState × Bool :=
  if pagePollingActive st then (applyFetch st resp, true) else (st, false)

/-- A two-type registry fixture: the built-in default shrimp type plus an
adult type, as served by the classes endpoint. -/
def demoRegistry : String → Option ClassInfo := fun s =>
  if s = "shrimp" then some ⟨0, "shrimp", "Shrimp", "#10B981", "Regular shrimp"⟩
  else if s = "adult" then some ⟨1, "adult", "Adult", "#3B82F6", "Adult shrimp"⟩
  else none

/-- A fresh annotate-page session: no boxes, not drawing, default type. -/
def demoSession : SessionState :=
  ⟨[], false, none, "shrimp", none, [], demoRegistry⟩

/-- A committed box of type shrimp. -/
def shrimpBox : BoundingBox :=
  ⟨1/10, 1/10, 1/5, 1/5, "shrimp", 1, some 0, none, []⟩

/-- A committed box of type adult. -/
def adultBox : BoundingBox :=
  ⟨3/10, 3/10, 1/5, 1/5, "adult", 1, some 1, none, []⟩

/-- A candidate box above the minimum-size threshold. -/
def demoCandidate : CurrentBox :=
  ⟨1/10, 1/10, 1/5, 1/5, "shrimp", 1⟩

/-- A session in the middle of a drag gesture. -/
def demoDrawingSession : SessionState :=
  ⟨[], true, some demoCandidate, "shrimp", none, [], demoRegistry⟩

/-- A listed image fixture. -/
def demoImage : ImageData :=
  ⟨"img-1", "img-1.jpg", "shrimp-tank.jpg", 1920, 1080, "/uploads/img-1.jpg"⟩

/-- Observed status: the job is preparing. -/
def statusPreparing : TrainingUpdate :=
  ⟨"preparing", "Preparing dataset", 0, 100, none⟩

/-- Observed status: training, epoch 1. -/
def statusTrainingEpoch1 : TrainingUpdate :=
  ⟨"training", "Training in progress", 1, 100, none⟩

/-- Observed status: training, epoch 2. -/
def statusTrainingEpoch2 : TrainingUpdate :=
  ⟨"training", "Training in progress", 2, 100, none⟩

/-- Observed status: the job has completed (a terminal state). -/
def statusCompleted : TrainingUpdate :=
  ⟨"completed", "Training completed", 100, 100, none⟩

/-- C9: in every `Annotation` record produced by the save operation, the
`total_shrimp` field equals the length of the `bounding_boxes` list. -/
theorem c9_total_shrimp_is_box_count (img : ImageData) (boxes : List BoundingBox) :
    (saveAnnotationRecord img boxes).total_shrimp =
      (saveAnnotationRecord img boxes).bounding_boxes.length :=
  rfl

/-- C10: for a non-empty image list, navigation keeps the current index
inside `[0, len - 1]`; next on the last image and previous on the first
image leave the index unchanged. -/
theorem c10_navigation_stays_in_range (idx len : Nat) (h : idx < len) :
    nextImage idx len < len ∧ prevImage idx < len ∧
      nextImage (len - 1) len = len - 1 ∧ prevImage 0 = 0 := by
  unfold nextImage prevImage
  refine ⟨?_, ?_, ?_, ?_⟩ <;> split_ifs <;> omega

/-- Witness for C10 at index 2 of a 3-image list. -/
theorem c10_witness :
    2 < 3 ∧ (nextImage 2 3 < 3 ∧ prevImage 2 < 3 ∧
      nextImage (3 - 1) 3 = 3 - 1 ∧ prevImage 0 = 0) :=
  ⟨by decide, c10_navigation_stays_in_range 2 3 (by decide)⟩

/-- C8: for positive canvas width, dividing a pixel coordinate by the
canvas width and multiplying back (as the renderer does) returns the
original coordinate exactly, over exact arithmetic. -/
theorem c8_normalize_pixel_round_trip (x w : ℚ) (hw : 0 < w) :
    (jsDiv x w).map (fun n => toPixelX n w) = some x := by
  simp [jsDiv, toPixelX, hw.ne', div_mul_cancel₀]

/-- Witness for C8 at pixel 100 on a 200-wide canvas. -/
theorem c8_witness :
    (0 : ℚ) < 200 ∧ (jsDiv 100 200).map (fun n => toPixelX n 200) = some 100 :=
  ⟨by norm_num, c8_normalize_pixel_round_trip 100 200 (by norm_num)⟩

/-- C4: with a zero canvas width the pointer-to-normalized conversion
evaluates `x / 0`, a non-finite JS value (modelled `none`), and does not
return the `(0, 0)` the spec requires; there is no zero-dimension guard in
the code. -/
theorem c4_zero_canvas_is_nonfinite :
    pointerToNormalizedX 120 20 200 0 = none ∧
      pointerToNormalizedX 120 20 200 0 ≠ some 0 := by
  have h : pointerToNormalizedX 120 20 200 0 = none := by
    norm_num [pointerToNormalizedX, jsDiv]
  exact ⟨h, by simp [h]⟩

/-- C3: a poll appends a log line only when the observed state or the
observed epoch differs from the previously logged one; an appended line is
never textually identical to the last line of the history; and the status
sequence preparing, preparing, training epoch 1, training epoch 1,
training epoch 2, completed yields exactly 4 history entries. -/
theorem c3_log_append_rule :
    (∀ (st : SyncState) (time : String) (s : TrainingUpdate),
        (pollStep st time (some s)).logs ≠ st.logs →
          st.prevStatus ≠ some s.status ∨ st.prevEpoch ≠ some s.current_epoch) ∧
    (∀ (st : SyncState) (time : String) (resp : Option TrainingUpdate),
        (pollStep st time resp).logs = st.logs ∨
          ∃ m, st.logs.getLast? ≠ some m ∧
            (pollStep st time resp).logs = sliceLast 50 (st.logs ++ [m])) ∧
    ([statusPreparing, statusPreparing, statusTrainingEpoch1, statusTrainingEpoch1,
        statusTrainingEpoch2, statusCompleted].foldl
        (fun st s => pollStep st "t" (some s)) ⟨none, none, []⟩).logs.length = 4 := by
  refine ⟨?_, ?_, by decide⟩
  · intro st time s hne
    by_cases h : shouldLog st.prevStatus st.prevEpoch s = true
    · simp only [shouldLog, decide_eq_true_eq] at h
      rcases h with h | h | ⟨hs, hp⟩ | ⟨_, he⟩
      · exact Or.inl h
      · exact Or.inr h
      · exact Or.inl (by rw [hs]; exact hp)
      · exact Or.inr (by rw [he]; simp)
    · exact absurd (by simp [pollStep, h]) hne
  · intro st time resp
    match resp with
    | none => exact Or.inl rfl
    | some s =>
      by_cases hlog : shouldLog st.prevStatus st.prevEpoch s = true
      · by_cases hdup : st.logs.length > 0 ∧ st.logs.getLast? = some (logMessageOf time s)
        · exact Or.inl (by simp [pollStep, hlog, hdup])
        · refine Or.inr ⟨logMessageOf time s, ?_, by simp [pollStep, hlog, hdup]⟩
          intro hcontra
          refine hdup ⟨?_, hcontra⟩
          cases hl : st.logs with
          | nil => rw [hl] at hcontra; simp at hcontra
          | cons a t => simp [hl]
      · exact Or.inl (by simp [pollStep, hlog])

/-- Witness for C3: the first successful poll of a fresh synchronizer
changes the history, so the previously logged state or epoch differed. -/
theorem c3_witness :
    (none : Option String) ≠ some "preparing" ∨ (none : Option Nat) ≠ some 0 :=
  c3_log_append_rule.1 ⟨none, none, []⟩ "t" statusPreparing (by decide)

/-- C5 counterexample: with the progress modal kept visible, a poll
request is still issued on the tick after a terminal `completed` status
has been observed and cached. -/
theorem c5_poll_after_terminal_counterexample :
    statusCompleted.status = "completed" ∧
      (runProgress [(true, "t1", some statusCompleted)]).1.prevStatus = some "completed" ∧
      (runProgress [(true, "t1", some statusCompleted),
        (true, "t2", some statusCompleted)]).2 = [true, true] := by
  decide

/-- C5 (amended): the progress modal polls exactly while the visibility
flag is true (observing a terminal state does not stop it); the train
page's own polling loop does stop: applying a terminal status deactivates
its interval condition, and once inactive no further fetch is issued. -/
theorem c5_polling_scope :
    (∀ (st : SyncState) (visible : Bool) (time : String) (resp : Option TrainingUpdate),
        (progressTick st visible time resp).2 = true ↔ visible = true) ∧
    (∀ (st : PageState) (s : TrainingUpdate),
        s.status = "completed" ∨ s.status = "failed" →
          pagePollingActive (applyFetch st (some s)) = false) ∧
    (∀ (st : PageState) (resp : Option TrainingUpdate),
        pagePollingActive st = false → pageTick st resp = (st, false)) := by
  refine ⟨?_, ?_, ?_⟩
  · intro st visible time resp
    cases visible <;> simp [progressTick]
  · intro st s hs
    rcases hs with h | h <;> simp [pagePollingActive, applyFetch, h]
  · intro st resp h
    simp [pageTick, h]

/-- Witness for C5 at a training page that observes a completed status. -/
theorem c5_witness :
    pagePollingActive (applyFetch ⟨true, "training"⟩ (some statusCompleted)) = false :=
  c5_polling_scope.2.1 ⟨true, "training"⟩ statusCompleted (Or.inl rfl)

/-- Filtering an enumerated list by index disagreement deletes exactly the
element at that index. -/
lemma enumFrom_filter_ne_map_snd (l : List BoundingBox) (n i : Nat) :
    ((List.enumFrom n l).filter fun p => p.1 ≠ n + i).map Prod.snd = l.eraseIdx i := by
  induction l generalizing n i with
  | nil => rfl
  | cons a t ih =>
    cases i with
    | zero =>
      simp only [List.enumFrom, List.eraseIdx, Nat.add_zero, List.filter_cons]
      split_ifs with hcond
      · exact absurd hcond (by simp)
      · rw [List.filter_eq_self.mpr]
        · exact List.enumFrom_map_snd _ _
        · intro p hp
          have h1 := (List.mem_enumFrom hp).1
          simp only [decide_eq_true_eq]
          omega
    | succ j =>
      simp only [List.enumFrom, List.eraseIdx, List.filter_cons]
      split_ifs with hcond
      · simp only [List.map_cons]
        rw [show n + (j + 1) = n + 1 + j by omega]
        rw [ih (n + 1) j]
      · exact absurd (by simp only [decide_eq_true_eq]; omega) hcond

/-- `deleteBox` is deletion of the element at the given index. -/
lemma deleteBox_eq_eraseIdx (boxes : List BoundingBox) (index : Nat) :
    deleteBox boxes index = boxes.eraseIdx index := by
  have h := enumFrom_filter_ne_map_snd boxes 0 index
  simpa [deleteBox, List.enum] using h

/-- C7 counterexample: with two identical boxes, deleting the box at index
0 leaves a box with the very same attribute tuple and geometry in the
list, so the deleted tuple is still present. -/
theorem c7_duplicate_box_counterexample :
    deleteBox [shrimpBox, shrimpBox] 0 = [shrimpBox] ∧
      shrimpBox ∈ deleteBox [shrimpBox, shrimpBox] 0 := by
  have h : deleteBox [shrimpBox, shrimpBox] 0 = [shrimpBox] := by
    rw [deleteBox_eq_eraseIdx]; rfl
  exact ⟨h, by rw [h]; exact List.mem_singleton.mpr rfl⟩

/-- C7 (amended): deleting the box at index `i` removes exactly that
occurrence: the multiset count of the deleted box drops by one, the
deleted tuple is absent afterwards whenever it occurred only once, and the
remaining boxes keep their relative order. -/
theorem c7_delete_at_index_spec (l : List BoundingBox) (i : Nat) (h : i < l.length) :
    deleteBox l i = l.eraseIdx i ∧
      (deleteBox l i).count l[i] + 1 = l.count l[i] ∧
      (l.count l[i] = 1 → l[i] ∉ deleteBox l i) ∧
      (deleteBox l i).Sublist l := by
  have hd : deleteBox l i = l.eraseIdx i := deleteBox_eq_eraseIdx l i
  have hsplit : l.eraseIdx i = l.take i ++ l.drop (i + 1) :=
    List.eraseIdx_eq_take_drop_succ l i
  have hl : l = l.take i ++ l[i] :: l.drop (i + 1) := by
    conv_lhs => rw [← List.take_append_drop i l, List.drop_eq_getElem_cons h]
  have hcount : ∀ b : BoundingBox, l = l.take i ++ b :: l.drop (i + 1) →
      (deleteBox l i).count b + 1 = l.count b := by
    intro b hb
    rw [hd, hsplit]
    conv_rhs => rw [hb]
    rw [List.count_append, List.count_append, List.count_cons_self]
    omega
  refine ⟨hd, hcount l[i] hl, ?_, hd ▸ List.eraseIdx_sublist l i⟩
  intro h1
  have h0 : (deleteBox l i).count l[i] = 0 := by
    have := hcount l[i] hl
    omega
  exact List.count_eq_zero.mp h0

/-- Witness for C7 on a two-box list, deleting index 0. -/
theorem c7_witness :
    deleteBox [shrimpBox, adultBox] 0 = [shrimpBox, adultBox].eraseIdx 0 ∧
      (deleteBox [shrimpBox, adultBox] 0).count shrimpBox + 1 =
        [shrimpBox, adultBox].count shrimpBox ∧
      ([shrimpBox, adultBox].count shrimpBox = 1 →
        shrimpBox ∉ deleteBox [shrimpBox, adultBox] 0) ∧
      (deleteBox [shrimpBox, adultBox] 0).Sublist [shrimpBox, adultBox] :=
  c7_delete_at_index_spec [shrimpBox, adultBox] 0 (by decide)

/-- C2 counterexample: drawing two shrimp boxes and then one adult box
renders the labels Shrimp 1, Shrimp 2, Adult 3 — the third label carries
the global position 3, not a per-type sequence number 1. -/
theorem c2_per_type_counter_counterexample :
    drawCanvasLabels demoRegistry [shrimpBox, shrimpBox, adultBox] none =
        ["Shrimp 1", "Shrimp 2", "Adult 3"] ∧
      drawCanvasLabels demoRegistry [shrimpBox, shrimpBox, adultBox] none ≠
        ["Shrimp 1", "Shrimp 2", "Adult 1"] := by
  decide

/-- C2 (amended): the renderer labels the box at position `i` of the drawn
list with its type display name followed by the 1-based global position
`i + 1` in the drawn list, counted across all boxes regardless of type. -/
theorem c2_label_counter_is_global (reg : String → Option ClassInfo)
    (committed : List BoundingBox) (current : Option CurrentBox) (i : Nat) :
    (drawCanvasLabels reg committed current)[i]? =
      (((committed.map fun b => b.label) ++ (current.map fun c => c.label).toList)[i]?).map
        fun lab => displayNameFor reg lab ++ " " ++ toString (i + 1) := by
  simp only [drawCanvasLabels, List.getElem?_map, List.getElem?_enum, Option.map_map]
  rfl

/-- The geometric invariant maintained for a candidate box while its
pointer coordinates stay inside the unit square. -/
def candidateInBounds (cb : CurrentBox) : Prop :=
  0 ≤ cb.x ∧ cb.x + cb.width ≤ 1 ∧ 0 ≤ cb.width ∧
    0 ≤ cb.y ∧ cb.y + cb.height ≤ 1 ∧ 0 ≤ cb.height

/-- A mouse move with coordinates inside the unit square preserves the
candidate-box invariant. -/
lemma moveBox_bounds (cb : CurrentBox) (nx ny : ℚ) (h : candidateInBounds cb)
    (hx0 : 0 ≤ nx) (hx1 : nx ≤ 1) (hy0 : 0 ≤ ny) (hy1 : ny ≤ 1) :
    candidateInBounds (moveBox cb nx ny) := by
  obtain ⟨h1, h2, h3, h4, h5, h6⟩ := h
  simp only [candidateInBounds, moveBox, jsAbs]
  split_ifs <;>
    exact ⟨by linarith, by linarith, by linarith, by linarith, by linarith, by linarith⟩

/-- A single mouse move away from a fresh zero-size anchor is symmetric in
the anchor and the pointer position. -/
lemma moveBox_anchor_comm (x₁ y₁ x₂ y₂ : ℚ) (lab : String) (conf : ℚ) :
    moveBox ⟨x₁, y₁, 0, 0, lab, conf⟩ x₂ y₂ = moveBox ⟨x₂, y₂, 0, 0, lab, conf⟩ x₁ y₁ := by
  have hx : (if x₂ - x₁ < 0 then x₂ else x₁) = (if x₁ - x₂ < 0 then x₁ else x₂) := by
    split_ifs <;> linarith
  have hw : jsAbs (x₂ - x₁) = jsAbs (x₁ - x₂) := by
    simp only [jsAbs]; split_ifs <;> linarith
  have hy : (if y₂ - y₁ < 0 then y₂ else y₁) = (if y₁ - y₂ < 0 then y₁ else y₂) := by
    split_ifs <;> linarith
  have hh : jsAbs (y₂ - y₁) = jsAbs (y₁ - y₂) := by
    simp only [jsAbs]; split_ifs <;> linarith
  simp only [moveBox]
  rw [hx, hw, hy, hh]

/-- Folding the mouse-move handler over a drawing session only rewrites
the candidate box, and the candidate stays inside the unit square when the
initial candidate does and every move is inside the unit square. -/
lemma foldMoves_spec (moves : List (ℚ × ℚ)) (st : SessionState) (cb : CurrentBox)
    (hd : st.isDrawing = true) (hc : st.currentBox = some cb) :
    ∃ cb' : CurrentBox,
      moves.foldl (fun s m => handleMouseMove s m.1 m.2) st =
        { st with currentBox := some cb' } ∧
      (candidateInBounds cb →
        (∀ m ∈ moves, 0 ≤ m.1 ∧ m.1 ≤ 1 ∧ 0 ≤ m.2 ∧ m.2 ≤ 1) →
        candidateInBounds cb') := by
  induction moves generalizing st cb with
  | nil =>
    refine ⟨cb, ?_, fun hb _ => hb⟩
    cases st
    cases hc
    rfl
  | cons m rest ih =>
    have hmove : handleMouseMove st m.1 m.2 =
        { st with currentBox := some (moveBox cb m.1 m.2) } := by
      simp [handleMouseMove, hd, hc]
    obtain ⟨cb', hfold, hbnd⟩ :=
      ih { st with currentBox := some (moveBox cb m.1 m.2) } (moveBox cb m.1 m.2) hd rfl
    refine ⟨cb', ?_, ?_⟩
    · rw [List.foldl_cons, hmove, hfold]
    · intro hb hmem
      have hm := hmem m (List.mem_cons_self m rest)
      exact hbnd (moveBox_bounds cb m.1 m.2 hb hm.1 hm.2.1 hm.2.2.1 hm.2.2.2)
        fun x hx => hmem x (List.mem_cons_of_mem m hx)

/-- On mouse-up during a drag, the resulting box set is the old set plus
the committed box exactly when the candidate passes the size threshold. -/
lemma handleMouseUp_boundingBoxes (st : SessionState) (cb : CurrentBox)
    (hd : st.isDrawing = true) (hc : st.currentBox = some cb) :
    (handleMouseUp st).boundingBoxes =
      if cb.width > 1/100 ∧ cb.height > 1/100 then
        st.boundingBoxes ++ [newBoxFrom st cb]
      else st.boundingBoxes := by
  cases st
  cases hc
  cases hd
  rfl

/-- Mouse-up during a drag always leaves drawing mode. -/
lemma handleMouseUp_isDrawing (st : SessionState) (cb : CurrentBox)
    (hd : st.isDrawing = true) (hc : st.currentBox = some cb) :
    (handleMouseUp st).isDrawing = false := by
  cases st
  cases hc
  cases hd
  rfl

/-- Mouse-up during a drag always clears the candidate box. -/
lemma handleMouseUp_currentBox (st : SessionState) (cb : CurrentBox)
    (hd : st.isDrawing = true) (hc : st.currentBox = some cb) :
    (handleMouseUp st).currentBox = none := by
  cases st
  cases hc
  cases hd
  rfl

/-- A gesture with a single mouse move, unfolded. -/
lemma runGesture_single (st : SessionState) (a b : ℚ × ℚ) :
    runGesture st a [b] =
      handleMouseUp
        { st with
          isDrawing := true
          currentBox := some (moveBox ⟨a.1, a.2, 0, 0, "shrimp", 1⟩ b.1 b.2) } :=
  rfl

/-- C1 counterexample: two gestures between the same two corner points
(mouse-down at (0.5, 0.5), up at (0.3, 0.3), versus mouse-down at
(0.3, 0.3), up at (0.5, 0.5)), each passing through (0.4, 0.4), both
commit a box, yet the stored boxes differ: the up-left drag loses its
anchor and stores width 0.1 instead of 0.2. -/
theorem c1_drag_direction_counterexample :
    ((runGesture demoSession (1/2, 1/2) [(2/5, 2/5), (3/10, 3/10)]).boundingBoxes.length = 1 ∧
      (runGesture demoSession (3/10, 3/10) [(2/5, 2/5), (1/2, 1/2)]).boundingBoxes.length = 1) ∧
    (runGesture demoSession (1/2, 1/2) [(2/5, 2/5), (3/10, 3/10)]).boundingBoxes ≠
      (runGesture demoSession (3/10, 3/10) [(2/5, 2/5), (1/2, 1/2)]).boundingBoxes := by
  norm_num [runGesture, handleMouseDown, handleMouseMove, handleMouseUp, moveBox,
    demoSession, jsAbs, newBoxFrom, demoRegistry]

/-- C1 (amended): for every gesture whose pointer coordinates lie in the
unit square, every box in the resulting box set is either a pre-existing
box or has non-negative width and height with `0 ≤ x`, `0 ≤ y`,
`x + width ≤ 1` and `y + height ≤ 1`; and for gestures consisting of a
single mouse move, dragging up-left versus down-right between the same two
corner points yields the identical session (hence the identical stored
box). -/
theorem c1_gesture_bounds_and_single_move_symmetry
    (st : SessionState) (a : ℚ × ℚ) (moves : List (ℚ × ℚ))
    (ha : 0 ≤ a.1 ∧ a.1 ≤ 1 ∧ 0 ≤ a.2 ∧ a.2 ≤ 1)
    (hm : ∀ m ∈ moves, 0 ≤ m.1 ∧ m.1 ≤ 1 ∧ 0 ≤ m.2 ∧ m.2 ≤ 1) :
    (∀ box ∈ (runGesture st a moves).boundingBoxes,
        box ∈ st.boundingBoxes ∨
          (0 ≤ box.x ∧ 0 ≤ box.y ∧ 0 ≤ box.width ∧ 0 ≤ box.height ∧
            box.x + box.width ≤ 1 ∧ box.y + box.height ≤ 1)) ∧
    (∀ b : ℚ × ℚ, runGesture st a [b] = runGesture st b [a]) := by
  constructor
  · intro box hbox
    obtain ⟨cb', hfold, hbnd⟩ :=
      foldMoves_spec moves (handleMouseDown st a.1 a.2)
        ⟨a.1, a.2, 0, 0, "shrimp", 1⟩ rfl rfl
    have hcb' : candidateInBounds cb' := by
      refine hbnd ?_ hm
      exact ⟨ha.1, by simpa using ha.2.1, le_refl 0, ha.2.2.1, by simpa using ha.2.2.2,
        le_refl 0⟩
    rw [runGesture, hfold] at hbox
    rw [handleMouseUp_boundingBoxes _ cb' rfl rfl] at hbox
    by_cases hth : cb'.width > 1/100 ∧ cb'.height > 1/100
    · rw [if_pos hth] at hbox
      simp only [List.mem_append, List.mem_singleton] at hbox
      rcases hbox with hbox | hbox
      · exact Or.inl hbox
      · right
        obtain ⟨b1, b2, b3, b4, b5, b6⟩ := hcb'
        rw [hbox]
        simp only [newBoxFrom]
        exact ⟨b1, b4, b3, b6, b2, b5⟩
    · rw [if_neg hth] at hbox
      exact Or.inl hbox
  · intro b
    rw [runGesture_single, runGesture_single, moveBox_anchor_comm]

/-- Witness for C1: a down-right single-move gesture inside the unit
square. -/
theorem c1_witness :
    ((0 : ℚ) ≤ 1/2 ∧ (1/2 : ℚ) ≤ 1 ∧ (0 : ℚ) ≤ 1/2 ∧ (1/2 : ℚ) ≤ 1) ∧
    ((∀ box ∈ (runGesture demoSession ((1 : ℚ)/2, (1 : ℚ)/2)
          [((2 : ℚ)/5, (2 : ℚ)/5)]).boundingBoxes,
        box ∈ demoSession.boundingBoxes ∨
          (0 ≤ box.x ∧ 0 ≤ box.y ∧ 0 ≤ box.width ∧ 0 ≤ box.height ∧
            box.x + box.width ≤ 1 ∧ box.y + box.height ≤ 1)) ∧
      (∀ b : ℚ × ℚ, runGesture demoSession ((1 : ℚ)/2, (1 : ℚ)/2) [b] =
        runGesture demoSession b [((1 : ℚ)/2, (1 : ℚ)/2)])) :=
  ⟨⟨by norm_num, by norm_num, by norm_num, by norm_num⟩,
    c1_gesture_bounds_and_single_move_symmetry demoSession (1/2, 1/2) [(2/5, 2/5)]
      ⟨by norm_num, by norm_num, by norm_num, by norm_num⟩
      (by
        intro m hmem
        rw [List.mem_singleton] at hmem
        subst hmem
        refine ⟨by norm_num, by norm_num, by norm_num, by norm_num⟩)⟩

/-- C6: on mouse-up during a drag, the candidate box is appended to the
box set exactly when both its width and height exceed 0.01; otherwise the
box set is unchanged; in both cases the session leaves drawing mode with
no candidate box. -/
theorem c6_mouse_up_commit_iff (st : SessionState) (cb : CurrentBox)
    (hd : st.isDrawing = true) (hc : st.currentBox = some cb) :
    (cb.width > 1/100 ∧ cb.height > 1/100 →
        (handleMouseUp st).boundingBoxes = st.boundingBoxes ++ [newBoxFrom st cb]) ∧
    (¬(cb.width > 1/100 ∧ cb.height > 1/100) →
        (handleMouseUp st).boundingBoxes = st.boundingBoxes) ∧
    (handleMouseUp st).isDrawing = false ∧
    (handleMouseUp st).currentBox = none := by
  refine ⟨fun h => ?_, fun h => ?_,
    handleMouseUp_isDrawing st cb hd hc, handleMouseUp_currentBox st cb hd hc⟩
  · rw [handleMouseUp_boundingBoxes st cb hd hc, if_pos h]
  · rw [handleMouseUp_boundingBoxes st cb hd hc, if_neg h]

/-- Witness for C6 at a drawing session whose candidate box is above the
minimum-size threshold. -/
theorem c6_witness :
    (handleMouseUp demoDrawingSession).isDrawing = false ∧
      (handleMouseUp demoDrawingSession).currentBox = none :=
  ⟨(c6_mouse_up_commit_iff demoDrawingSession demoCandidate rfl rfl).2.2.1,
    (c6_mouse_up_commit_iff demoDrawingSession demoCandidate rfl rfl).2.2.2⟩

end ShrimpVision
